import Mathlib

/-!
Verification of the hcloud client transport core (`hcloud/client.go`).

The Go source is shallowly embedded: machine integers (`int`, `int64`,
`time.Duration`) become `ℤ`, `float64` values that the claims exercise are
modelled as `ℚ` (all concrete inputs used below are exactly representable in
binary floating point, and the float operations on them are exact),
byte buffers become `List ℕ`, and Go's multiple-return `(T, error)` becomes
`Except`.  JSON bodies are modelled at the level of what `encoding/json`
unmarshalling yields for the two target structs used by the code (see `Body`).
-/

namespace Hcloud

/-! ## Backoff (client.go lines 37-56)

`type BackoffFunc func(retries int) time.Duration`.

Go's `time.Duration(x)` for a `float64` x converts by truncation toward zero,
i.e. `Int.tdiv` of the numerator by the denominator for an exact rational. -/

/-- Truncation toward zero of a rational, the semantics of Go's
`time.Duration(f)` conversion applied to an exactly-represented float `f`. -/
def ratTrunc (q : ℚ) : ℤ :=
  q.num.tdiv q.den

/-- `ConstantBackoff` returns a BackoffFunc which backs off for constant
duration d.  (client.go lines 42-48) -/
def ConstantBackoff (d : ℤ) : ℕ → ℤ :=
  fun _ => d

/-- `ExponentialBackoff(b, d)` from client.go lines 50-56:
`time.Duration(math.Pow(b, float64(retries))) * d`.
The `math.Pow` result is converted to an integral `time.Duration` (truncation
toward zero) BEFORE being multiplied by `d`. -/
def ExponentialBackoff (b : ℚ) (d : ℤ) : ℕ → ℤ :=
  fun retries => ratTrunc (b ^ retries) * d

/-! ## Data model (client.go lines 18-35, 218-311)

`Error` is the API error type; any other Go `error` value (transport failure,
wrapped errors, ...) is collapsed into `GoErr.other`, which is exactly what the
type assertion `err.(Error)` in `Client.all` distinguishes. -/

/-- `Error` from client.go lines 27-31 (ErrorCode is a string). -/
structure HError where
  code : String
  message : String
deriving DecidableEq

/-- A Go `error` value as seen by `Client.all`: either the concrete API type
`Error` (matched by the `err.(Error)` type assertion) or any other error. -/
inductive GoErr where
  | api (e : HError)
  | other (msg : String)
deriving DecidableEq

/-- `ResponseMetaPagination` (client.go lines 271-279). -/
structure ResponseMetaPagination where
  page : ℤ
  perPage : ℤ
  previousPage : ℤ
  nextPage : ℤ
  lastPage : ℤ
  totalEntries : ℤ
deriving DecidableEq

/-- The zero value of `ResponseMetaPagination`. -/
def zeroPagination : ResponseMetaPagination :=
  ⟨0, 0, 0, 0, 0, 0⟩

/-- `ResponseMetaRatelimit` (client.go lines 306-311).  `Reset` is a
`time.Time`; we model it as `Option ℤ` of unix seconds, `none` being the zero
`time.Time` (which is set only when `ParseInt` succeeds). -/
structure ResponseMetaRatelimit where
  limit : ℤ
  remaining : ℤ
  reset : Option ℤ
deriving DecidableEq

/-- `ResponseMeta` (client.go lines 265-269): `Pagination` is a pointer, so it
is `Option`; `nil` means it was never assigned by `readMeta`. -/
structure ResponseMeta where
  pagination : Option ResponseMetaPagination
  ratelimit : ResponseMetaRatelimit
deriving DecidableEq

/-- A buffered byte stream: Go's `bytes.Reader` handed to `ioutil.NopCloser`.
`pos` is the read position; `ioutil.ReadAll` consumes from `pos` to the end. -/
structure ByteReader where
  data : List ℕ
  pos : ℕ
deriving DecidableEq

/-- `Response` (client.go lines 218-222) restricted to the fields the
pagination driver and `ReadBody` inspect: parsed meta and the body stream. -/
structure Response where
  meta : ResponseMeta
  body : ByteReader
deriving DecidableEq

/-! ## Pagination driver `Client.all` (client.go lines 170-193)

The Go loop is potentially nonterminating (a fetcher that keeps returning
`limit_reached` is retried forever), so the embedding takes a fuel argument
and returns a trace: `result = none` means the loop was still running after
`fuel` iterations; `pages` records the page number passed to each invocation
of the fetcher, in order; `sleeps` records each `c.backoff(retries)` duration
slept.  The fetcher is stateful (`σ`) because Go closures passed to `all` may
answer differently on successive calls for the same page. -/

/-- The test `err.(Error)` + `err.Code == ErrorCodeLimitReached` from
client.go lines 178-179 (`ErrorCodeLimitReached = "limit_reached"`). -/
def isRateLimitError : GoErr → Bool
  | .api e => e.code = "limit_reached"
  | .other _ => false

/-- Trace of one run of `Client.all`. -/
structure AllTrace where
  result : Option (Except GoErr Response)
  pages : List ℤ
  sleeps : List ℤ

/-- The loop body of `Client.all` (client.go lines 175-192), fuel-indexed. -/
def allAux {σ : Type} (bo : ℕ → ℤ) (f : σ → ℤ → σ × Except GoErr Response) :
    ℕ → σ → ℕ → ℤ → AllTrace
  | 0, _, _, _ => ⟨none, [], []⟩
  | fuel+1, s, retries, page =>
    match f s page with
    | (s', .error e) =>
      if isRateLimitError e then
        let t := allAux bo f fuel s' (retries + 1) page
        ⟨t.result, page :: t.pages, bo retries :: t.sleeps⟩
      else
        ⟨some (.error e), [page], []⟩
    | (s', .ok resp) =>
      match resp.meta.pagination with
      | none => ⟨some (.ok resp), [page], []⟩
      | some pag =>
        if pag.nextPage = 0 then
          ⟨some (.ok resp), [page], []⟩
        else
          let t := allAux bo f fuel s' 0 pag.nextPage
          ⟨t.result, page :: t.pages, t.sleeps⟩

/-- `Client.all` entry (client.go lines 171-174): `retries = 0`, `page = 1`. -/
def clientAll {σ : Type} (bo : ℕ → ℤ) (f : σ → ℤ → σ × Except GoErr Response)
    (fuel : ℕ) (s : σ) : AllTrace :=
  allAux bo f fuel s 0 1

/-- A fetcher that answers every call with a `limit_reached` API error. -/
def alwaysLimited : Unit → ℤ → Unit × Except GoErr Response :=
  fun s _ => (s, .error (.api ⟨"limit_reached", "rate limit exceeded"⟩))

/-- A successful response whose pagination block has `NextPage = next` and all
other fields zero, with an empty body. -/
def pageResp (next : ℤ) : Response :=
  { meta := { pagination := some { zeroPagination with nextPage := next },
              ratelimit := ⟨0, 0, none⟩ },
    body := ⟨[], 0⟩ }

/-- A fetcher whose every page reports `next_page = 0`. -/
def singlePage : Unit → ℤ → Unit × Except GoErr Response :=
  fun s _ => (s, .ok (pageResp 0))

/-- A fetcher where pages 1 and 2 report `next_page` equal to the following
page number and page 3 reports `next_page = 0`. -/
def threePages : Unit → ℤ → Unit × Except GoErr Response :=
  fun s p => (s, .ok (pageResp (if p = 1 then 2 else if p = 2 then 3 else 0)))

/-! ## Headers and body parsing (client.go lines 137-163, 195-216, 237-263) -/

/-- The response headers the core reads.  Go's `Header.Get` returns `""` for
a missing header, so `""` models absence. -/
structure Headers where
  contentType : String
  rateLimitLimit : String
  rateLimitRemaining : String
  rateLimitReset : String
deriving DecidableEq

/-- `strings.HasPrefix(s, pre)`. (`String.startsWith` from the Lean library is
avoided because its position arithmetic does not reduce in the kernel.) -/
def hasPrefix (s pre : String) : Bool :=
  pre.data.isPrefixOf s.data

/-- `strconv.Atoi` / `strconv.ParseInt(s, 10, 64)` digit parsing: all
characters must be decimal digits and there must be at least one. -/
def parseDigits : List Char → Option ℕ
  | [] => none
  | cs => cs.foldlM
      (fun acc c => if c.isDigit then some (acc * 10 + (c.toNat - 48)) else none) 0

/-- `strconv.Atoi(s)`: optional sign followed by a nonempty digit string;
`none` models a parse error.  (Values are mathematical integers; the 64-bit
range check, under which Go would return a clamped value plus an error, is
not modelled — no claim exercises it.) -/
def atoi (s : String) : Option ℤ :=
  match s.data with
  | '+' :: rest => (parseDigits rest).map (fun n => (n : ℤ))
  | '-' :: rest => (parseDigits rest).map (fun n => -(n : ℤ))
  | l => (parseDigits l).map (fun n => (n : ℤ))

/-- What `encoding/json` unmarshalling of the buffered body yields for the two
target structs used in client.go.  `notJson` is a body on which
`json.Unmarshal` fails (not valid JSON); `jsonBody c m pag` is a valid JSON
object whose nested `error.code` / `error.message` fields parse to `c` and `m`
(absent fields leave the zero value `""`) and whose `meta.pagination` key
parses to `pag` (`none` = key absent, leaving the target struct at its zero
value). -/
inductive Body where
  | notJson
  | jsonBody (errCode : String) (errMessage : String)
      (metaPagination : Option ResponseMetaPagination)
deriving DecidableEq

/-- The rate-limit half of `Response.readMeta` (client.go lines 238-248): each
field is parsed independently from its own header; a missing header leaves the
zero value, `Limit, _ = strconv.Atoi(h)` stores 0 on a parse error, and
`Reset` is assigned only when `ParseInt` succeeds. -/
def parseRatelimit (hdr : Headers) : ResponseMetaRatelimit :=
  { limit := if hdr.rateLimitLimit = "" then 0 else (atoi hdr.rateLimitLimit).getD 0,
    remaining := if hdr.rateLimitRemaining = "" then 0
      else (atoi hdr.rateLimitRemaining).getD 0,
    reset := if hdr.rateLimitReset = "" then none else atoi hdr.rateLimitReset }

/-- The pagination half of `Response.readMeta` (client.go lines 250-260):
parsed only under a JSON content type; `json.Unmarshal` failure aborts
`readMeta` with the error; an absent `meta.pagination` key leaves the nested
zero struct, whose address is stored (so the pointer is always non-nil after
a successful JSON parse). -/
def parsePagination (contentType : String) (body : Body) :
    Except String (Option ResponseMetaPagination) :=
  if hasPrefix contentType "application/json" then
    match body with
    | .notJson => .error "invalid JSON"
    | .jsonBody _ _ pag => .ok (some (pag.getD zeroPagination))
  else
    .ok none

/-- `Response.readMeta` (client.go lines 237-263): rate-limit headers first
(never failing), then the pagination block, whose parse error is the only
error exit. -/
def readMeta (hdr : Headers) (body : Body) : Except String ResponseMeta :=
  match parsePagination hdr.contentType body with
  | .error e => .error e
  | .ok pag => .ok ⟨pag, parseRatelimit hdr⟩

/-- `errorFromResponse` (client.go lines 195-216); `none` models returning a
nil error. -/
def errorFromResponse (contentType : String) (body : Body) : Option HError :=
  if ¬ hasPrefix contentType "application/json" then none
  else
    match body with
    | .notJson => none
    | .jsonBody c m _ => if c = "" ∧ m = "" then none else some ⟨c, m⟩

/-- The error taxonomy of `Client.Do`. -/
inductive DoErr where
  | metaParse (msg : String)
  | api (e : HError)
  | genericStatus (status : ℤ)
deriving DecidableEq

/-- The response-processing part of `Client.Do` (client.go lines 143-153),
after the body has been buffered: `readMeta` runs first and a failure there is
wrapped and returned at once; only then is a 400-599 status classified via
`errorFromResponse`, substituting the generic status-code error when the
classifier returns nil.  The decode of the body into `v` (lines 155-161) is
out of the claims' scope; on success the parsed meta is returned. -/
def doProcess (status : ℤ) (hdr : Headers) (body : Body) :
    Except DoErr ResponseMeta :=
  match readMeta hdr body with
  | .error e =>
      .error (.metaParse ("hcloud: error reading response meta data: " ++ e))
  | .ok meta =>
    if 400 ≤ status ∧ status ≤ 599 then
      match errorFromResponse hdr.contentType body with
      | some e => .error (.api e)
      | none => .error (.genericStatus status)
    else
      .ok meta

/-! ## Body buffering and `ReadBody` (client.go lines 137-141, 228-235) -/

/-- `ioutil.ReadAll` on a buffered reader: returns the bytes from the current
position to the end and leaves the reader exhausted. -/
def readAll (r : ByteReader) : List ℕ × ByteReader :=
  (r.data.drop r.pos, { r with pos := r.data.length })

/-- The body `Client.Do` installs after buffering (client.go line 141):
`ioutil.NopCloser(bytes.NewReader(body))`, a fresh reader at position 0. -/
def bufferedBody (bytes : List ℕ) : ByteReader :=
  ⟨bytes, 0⟩

/-- `Response.ReadBody` (client.go lines 228-235): read all of `r.Body`, then
replace `r.Body` with a fresh reader over the bytes just read so the body can
be read again. -/
def ReadBody (r : Response) : List ℕ × Response :=
  let p := readAll r.body
  (p.1, { r with body := bufferedBody p.1 })

/-! ## Client configuration (client.go lines 58-127) -/

/-- The `Client` configuration that request building reads. -/
structure Client where
  endpoint : String
  token : String
deriving DecidableEq

/-- `strings.TrimRight(s, "/")`: remove ALL trailing `'/'` characters. -/
def trimRightSlashes (s : String) : String :=
  ⟨(s.data.reverse.dropWhile (fun ch => ch = '/')).reverse⟩

/-- `WithEndpoint` (client.go lines 74-78):
`client.endpoint = strings.TrimRight(endpoint, "/")`. -/
def WithEndpoint (endpoint : String) (c : Client) : Client :=
  { c with endpoint := trimRightSlashes endpoint }

/-- The URL built by `Client.NewRequest` (client.go line 115):
`url := c.endpoint + path`. -/
def newRequestURL (c : Client) (path : String) : String :=
  c.endpoint ++ path

end Hcloud

namespace Hcloud

/-! ## Theorems -/

theorem ratTrunc_eq_floor (q : ℚ) (h : 0 ≤ q) : ratTrunc q = ⌊q⌋ := by
  unfold ratTrunc
  rw [Int.tdiv_eq_ediv (Rat.num_nonneg.mpr h) (Int.ofNat_nonneg q.den)]
  exact (Rat.floor_def).symm

/-- C1 counterexample: with base `b = 1.5` (exactly representable as a float),
unit `d = 2` and retry count `n = 1`, the code yields
`time.Duration(math.Pow(1.5, 1)) * 2 = 1 * 2 = 2`, not
`pow(1.5, 1) * 2 = 3`: the claimed identity `next(n) = pow(b, n) * d` fails. -/
theorem expBackoff_not_pow_mul :
    ¬ ((ExponentialBackoff (3/2) 2 1 : ℤ) : ℚ) = (3/2 : ℚ) ^ 1 * 2 := by
  have hn : ((3 : ℚ)/2).num = 3 := by norm_num
  have hd : ((3 : ℚ)/2).den = 2 := by norm_num
  have h2 : ExponentialBackoff (3/2) 2 1 = 2 := by
    unfold ExponentialBackoff ratTrunc
    rw [pow_one, hn, hd]
    decide
  rw [h2]
  norm_num

/-- C1 (amended): for every base `b ≥ 0`, unit `d` and retry count `n`,
`ExponentialBackoff(b, d)(n)` returns `⌊b^n⌋ * d` (the `math.Pow` result
truncated to an integral duration, then multiplied by `d`); in particular
applied to `0` it returns `d` exactly. -/
theorem expBackoff_trunc_pow_mul (b : ℚ) (d : ℤ) (hb : 0 ≤ b) :
    (∀ n : ℕ, ExponentialBackoff b d n = ⌊b ^ n⌋ * d) ∧
      ExponentialBackoff b d 0 = d := by
  constructor
  · intro n
    unfold ExponentialBackoff
    rw [ratTrunc_eq_floor _ (pow_nonneg hb n)]
  · unfold ExponentialBackoff ratTrunc
    simp [pow_zero]

/-- Witness for C1's amended theorem at `b = 2`, `d = 500`, `n = 3`:
`ExponentialBackoff(2, 500ms)(3) = 2^3 * 500ms = 4000ms`, and at retry 0 the
wait equals the unit. -/
theorem expBackoff_trunc_pow_mul_witness :
    ExponentialBackoff 2 500 3 = ⌊(2 : ℚ) ^ 3⌋ * 500 ∧
      ExponentialBackoff 2 500 0 = 500 :=
  ⟨(expBackoff_trunc_pow_mul 2 500 (by norm_num)).1 3,
   (expBackoff_trunc_pow_mul 2 500 (by norm_num)).2⟩

/-- C2: when a fetch for page `p` returns an `Error` with code
`"limit_reached"`, `Client.all` sleeps `backoff(retries)`, increments the retry
count and re-invokes the fetcher with the SAME page `p` (first conjunct, a
step unfolding of the loop); and no maximum retry count is enforced: a fetcher
that always answers `limit_reached` is still running after any number `fuel`
of iterations, all of them on the same page (second conjunct). -/
theorem all_limit_reached_retries_same_page :
    (∀ (σ : Type) (bo : ℕ → ℤ) (f : σ → ℤ → σ × Except GoErr Response)
        (fuel : ℕ) (s s' : σ) (retries : ℕ) (page : ℤ) (e : HError),
        f s page = (s', .error (.api e)) → e.code = "limit_reached" →
        allAux bo f (fuel + 1) s retries page =
          ⟨(allAux bo f fuel s' (retries + 1) page).result,
            page :: (allAux bo f fuel s' (retries + 1) page).pages,
            bo retries :: (allAux bo f fuel s' (retries + 1) page).sleeps⟩) ∧
      (∀ (bo : ℕ → ℤ) (fuel retries : ℕ) (page : ℤ),
        (allAux bo alwaysLimited fuel () retries page).result = none ∧
          (allAux bo alwaysLimited fuel () retries page).pages =
            List.replicate fuel page) := by
  constructor
  · intro σ bo f fuel s s' retries page e hf hcode
    simp only [allAux, hf, isRateLimitError, hcode]
    simp
  · intro bo fuel
    induction fuel with
    | zero => intro retries page; exact ⟨rfl, rfl⟩
    | succ n ih =>
      intro retries page
      have h1 := ih (retries + 1) page
      simp only [allAux, alwaysLimited, isRateLimitError]
      simp [List.replicate, h1.1, h1.2]

/-- Witness for C2: a single `limit_reached` answer with backoff constant 7
makes the loop sleep 7 and re-fetch page 5; with fuel 1 the trace is exactly
one fetch of page 5, one sleep of 7, and no result yet. -/
theorem all_limit_reached_retries_same_page_witness :
    allAux (fun _ => 7) alwaysLimited 1 () 0 5 = ⟨none, [5], [7]⟩ := by
  have h := all_limit_reached_retries_same_page.1 Unit (fun _ => 7)
    alwaysLimited 0 () () 0 5 ⟨"limit_reached", "rate limit exceeded"⟩ rfl rfl
  rw [h]
  rfl

/-- C3: `Client.all` starts at page 1 with retry count 0 (conjunct i); on a
successful fetch it terminates returning the response without error exactly
when the pagination block is absent or its `NextPage` is 0 (conjunct ii),
otherwise it resets the retry count to 0 and fetches `NextPage` next
(conjunct iii); a fetcher whose first response has `next_page = 0` is invoked
exactly once (conjunct iv); a fetcher whose pages 1 and 2 point to the
following page and whose page 3 reports `next_page = 0` is invoked exactly
three times with pages 1, 2, 3 in order and the driver returns page 3's
response without error (conjunct v). -/
theorem all_pagination_flow :
    (∀ (σ : Type) (bo : ℕ → ℤ) (f : σ → ℤ → σ × Except GoErr Response)
        (fuel : ℕ) (s : σ), clientAll bo f fuel s = allAux bo f fuel s 0 1) ∧
      (∀ (σ : Type) (bo : ℕ → ℤ) (f : σ → ℤ → σ × Except GoErr Response)
        (fuel : ℕ) (s s' : σ) (retries : ℕ) (page : ℤ) (resp : Response),
        f s page = (s', .ok resp) →
        (resp.meta.pagination = none ∨
          ∃ pag, resp.meta.pagination = some pag ∧ pag.nextPage = 0) →
        allAux bo f (fuel + 1) s retries page = ⟨some (.ok resp), [page], []⟩) ∧
      (∀ (σ : Type) (bo : ℕ → ℤ) (f : σ → ℤ → σ × Except GoErr Response)
        (fuel : ℕ) (s s' : σ) (retries : ℕ) (page : ℤ) (resp : Response)
        (pag : ResponseMetaPagination),
        f s page = (s', .ok resp) → resp.meta.pagination = some pag →
        pag.nextPage ≠ 0 →
        allAux bo f (fuel + 1) s retries page =
          ⟨(allAux bo f fuel s' 0 pag.nextPage).result,
            page :: (allAux bo f fuel s' 0 pag.nextPage).pages,
            (allAux bo f fuel s' 0 pag.nextPage).sleeps⟩) ∧
      (∀ bo : ℕ → ℤ,
        clientAll bo singlePage 10 () = ⟨some (.ok (pageResp 0)), [1], []⟩) ∧
      (∀ bo : ℕ → ℤ,
        clientAll bo threePages 10 () =
          ⟨some (.ok (pageResp 0)), [1, 2, 3], []⟩) := by
  refine ⟨fun σ bo f fuel s => rfl, ?_, ?_, ?_, ?_⟩
  · intro σ bo f fuel s s' retries page resp hf hpag
    rcases hpag with h | ⟨pag, hsome, hzero⟩
    · simp only [allAux, hf, h]
    · simp only [allAux, hf, hsome, hzero, if_pos]
  · intro σ bo f fuel s s' retries page resp pag hf hsome hnz
    simp only [allAux, hf, hsome, if_neg hnz]
  · intro bo; rfl
  · intro bo; rfl

/-- Witness for C3's hypothesised conjuncts: with the `threePages` fetcher,
conjunct iii applied at page 1 (whose response points to page 2) unfolds one
step, and conjunct ii applied at page 3 (whose response reports
`next_page = 0`) terminates with exactly that fetch. -/
theorem all_pagination_flow_witness :
    allAux (fun _ => 0) threePages 1 () 0 3 =
        ⟨some (.ok (pageResp 0)), [3], []⟩ ∧
      allAux (fun _ => 0) threePages 3 () 0 1 =
        ⟨(allAux (fun _ => 0) threePages 2 () 0 2).result,
          1 :: (allAux (fun _ => 0) threePages 2 () 0 2).pages,
          (allAux (fun _ => 0) threePages 2 () 0 2).sleeps⟩ :=
  ⟨all_pagination_flow.2.1 Unit (fun _ => 0) threePages 0 () () 0 3
      (pageResp 0) rfl (Or.inr ⟨zeroPagination, rfl, rfl⟩),
    all_pagination_flow.2.2.1 Unit (fun _ => 0) threePages 2 () () 0 1
      (pageResp 2) { zeroPagination with nextPage := 2 } rfl rfl (by decide)⟩

/-- C4: any fetch error that is not an `Error` with code `"limit_reached"` —
a transport error (`GoErr.other`) or an API `Error` with any other code —
makes `Client.all` return immediately: the result is that same error with no
response, the failing fetch is the last one (no further pages, no sleeps). -/
theorem all_aborts_on_other_errors :
    (∀ (σ : Type) (bo : ℕ → ℤ) (f : σ → ℤ → σ × Except GoErr Response)
        (fuel : ℕ) (s s' : σ) (retries : ℕ) (page : ℤ) (e : GoErr),
        f s page = (s', .error e) → isRateLimitError e = false →
        allAux bo f (fuel + 1) s retries page =
          ⟨some (.error e), [page], []⟩) ∧
      (∀ msg, isRateLimitError (.other msg) = false) ∧
      (∀ e : HError, e.code ≠ "limit_reached" →
        isRateLimitError (.api e) = false) := by
  refine ⟨?_, fun msg => rfl, ?_⟩
  · intro σ bo f fuel s s' retries page e hf hnot
    simp only [allAux, hf, hnot]
    simp
  · intro e hne
    simp only [isRateLimitError, decide_eq_false_iff_not]
    exact hne

/-- Witness for C4: a fetcher that answers page 1 with a transport error makes
the driver return exactly that error after the single fetch. -/
theorem all_aborts_on_other_errors_witness :
    allAux (fun _ => 0)
        (fun (s : Unit) (_ : ℤ) => (s, .error (.other "connection refused")))
        4 () 0 1 =
      ⟨some (.error (.other "connection refused")), [1], []⟩ :=
  all_aborts_on_other_errors.1 Unit (fun _ => 0)
    (fun s _ => (s, .error (.other "connection refused"))) 3 () () 0 1
    (.other "connection refused") rfl rfl

theorem readMeta_ok_parts (hdr : Headers) (body : Body) (m : ResponseMeta)
    (h : readMeta hdr body = .ok m) :
    parsePagination hdr.contentType body = .ok m.pagination ∧
      m.ratelimit = parseRatelimit hdr := by
  unfold readMeta at h
  cases hp : parsePagination hdr.contentType body with
  | error e => rw [hp] at h; cases h
  | ok pag => rw [hp] at h; cases h; exact ⟨rfl, rfl⟩

/-- C5: for a 400-599 status, a non-JSON content type makes the classifier
return nil and `Do` synthesize the generic status-code error (conjunct 1);
a JSON body whose parsed `error.code` and `error.message` are both empty
likewise yields nil and the generic status error (conjunct 2); otherwise the
classifier returns a typed `Error` carrying exactly that code and message
(conjunct 3). -/
theorem errorFromResponse_classification :
    (∀ (status : ℤ) (hdr : Headers) (body : Body),
      400 ≤ status → status ≤ 599 →
      ¬ hasPrefix hdr.contentType "application/json" →
      errorFromResponse hdr.contentType body = none ∧
        doProcess status hdr body = .error (.genericStatus status)) ∧
      (∀ (status : ℤ) (hdr : Headers) (pag : Option ResponseMetaPagination),
        400 ≤ status → status ≤ 599 →
        hasPrefix hdr.contentType "application/json" →
        errorFromResponse hdr.contentType (.jsonBody "" "" pag) = none ∧
          doProcess status hdr (.jsonBody "" "" pag) =
            .error (.genericStatus status)) ∧
      (∀ (contentType c m : String) (pag : Option ResponseMetaPagination),
        hasPrefix contentType "application/json" →
        ¬ (c = "" ∧ m = "") →
        errorFromResponse contentType (.jsonBody c m pag) = some ⟨c, m⟩) := by
  refine ⟨?_, ?_, ?_⟩
  · intro status hdr body h4 h5 hct
    constructor
    · simp [errorFromResponse, hct]
    · simp [doProcess, readMeta, parsePagination, errorFromResponse, hct, h4, h5]
  · intro status hdr pag h4 h5 hct
    constructor
    · simp [errorFromResponse, hct]
    · simp [doProcess, readMeta, parsePagination, errorFromResponse, hct, h4, h5]
  · intro contentType c m pag hct hne
    simp [errorFromResponse, hct, hne]

/-- Witness for C5: a 404 with content type `text/html` gets the generic
status error (classifier nil), while a JSON 404 body with code `not_found`
yields the typed error. -/
theorem errorFromResponse_classification_witness :
    (errorFromResponse "text/html" (.jsonBody "not_found" "x" none) = none ∧
      doProcess 404 ⟨"text/html", "", "", ""⟩ (.jsonBody "not_found" "x" none) =
        .error (.genericStatus 404)) ∧
      errorFromResponse "application/json" (.jsonBody "not_found" "x" none) =
        some ⟨"not_found", "x"⟩ :=
  ⟨errorFromResponse_classification.1 404 ⟨"text/html", "", "", ""⟩
      (.jsonBody "not_found" "x" none) (by norm_num) (by norm_num) (by decide),
    errorFromResponse_classification.2.2 "application/json" "not_found" "x"
      none (by decide) (by decide)⟩

/-- C6: `readMeta` fails exactly on a JSON content type with an unparsable
body, so rate-limit header parsing never makes it fail (conjunct 1); a missing
(`""`) or unparsable rate-limit header leaves the corresponding field at its
zero value (conjunct 2); each of the three fields is parsed independently,
depending only on its own header (conjunct 3). -/
theorem readMeta_ratelimit_headers :
    (∀ (hdr : Headers) (body : Body),
      (∃ e, readMeta hdr body = .error e) ↔
        (hasPrefix hdr.contentType "application/json" ∧ body = .notJson)) ∧
      (∀ (hdr : Headers) (body : Body) (m : ResponseMeta),
        readMeta hdr body = .ok m →
        ((hdr.rateLimitLimit = "" ∨ atoi hdr.rateLimitLimit = none) →
          m.ratelimit.limit = 0) ∧
          ((hdr.rateLimitRemaining = "" ∨ atoi hdr.rateLimitRemaining = none) →
            m.ratelimit.remaining = 0) ∧
          ((hdr.rateLimitReset = "" ∨ atoi hdr.rateLimitReset = none) →
            m.ratelimit.reset = none)) ∧
      (∀ (h₁ h₂ : Headers) (b₁ b₂ : Body) (m₁ m₂ : ResponseMeta),
        readMeta h₁ b₁ = .ok m₁ → readMeta h₂ b₂ = .ok m₂ →
        (h₁.rateLimitLimit = h₂.rateLimitLimit →
          m₁.ratelimit.limit = m₂.ratelimit.limit) ∧
          (h₁.rateLimitRemaining = h₂.rateLimitRemaining →
            m₁.ratelimit.remaining = m₂.ratelimit.remaining) ∧
          (h₁.rateLimitReset = h₂.rateLimitReset →
            m₁.ratelimit.reset = m₂.ratelimit.reset)) := by
  refine ⟨?_, ?_, ?_⟩
  · intro hdr body
    constructor
    · rintro ⟨e, he⟩
      unfold readMeta parsePagination at he
      by_cases hct : hasPrefix hdr.contentType "application/json"
      · cases body with
        | notJson => exact ⟨hct, rfl⟩
        | jsonBody c m pag => simp [hct] at he
      · simp [hct] at he
    · rintro ⟨hct, rfl⟩
      exact ⟨"invalid JSON", by simp [readMeta, parsePagination, hct]⟩
  · intro hdr body m h
    have hrl := (readMeta_ok_parts hdr body m h).2
    rw [hrl]
    refine ⟨?_, ?_, ?_⟩ <;> rintro (h | h) <;> simp [parseRatelimit, h]
  · intro h₁ h₂ b₁ b₂ m₁ m₂ hm₁ hm₂
    have r₁ := (readMeta_ok_parts h₁ b₁ m₁ hm₁).2
    have r₂ := (readMeta_ok_parts h₂ b₂ m₂ hm₂).2
    rw [r₁, r₂]
    exact ⟨fun he => by simp [parseRatelimit, he],
      fun he => by simp [parseRatelimit, he],
      fun he => by simp [parseRatelimit, he]⟩

/-- Witness for C6: limit header `"abc"` (unparsable), remaining header
missing, reset header `"12x"` (unparsable) all leave their fields zero, and
meta parsing succeeds. -/
theorem readMeta_ratelimit_headers_witness :
    readMeta ⟨"", "abc", "", "12x"⟩ .notJson = .ok ⟨none, ⟨0, 0, none⟩⟩ ∧
      (⟨none, ⟨0, 0, none⟩⟩ : ResponseMeta).ratelimit.limit = 0 ∧
      (⟨none, ⟨0, 0, none⟩⟩ : ResponseMeta).ratelimit.remaining = 0 ∧
      (⟨none, ⟨0, 0, none⟩⟩ : ResponseMeta).ratelimit.reset = none := by
  have h := readMeta_ratelimit_headers.2.1 ⟨"", "abc", "", "12x"⟩ .notJson
    ⟨none, ⟨0, 0, none⟩⟩ rfl
  exact ⟨rfl, h.1 (Or.inr (by decide)), h.2.1 (Or.inl rfl),
    h.2.2 (Or.inr (by decide))⟩

/-- C7: among successfully parsed metas, the pagination block is present if
and only if the content type indicates JSON (conjunct 1); a valid JSON body
whose `meta.pagination` key is absent parses to a present, all-zero pagination
block — in particular `NextPage = 0` (conjunct 2); under a non-JSON content
type the pagination stays `nil` (conjunct 3). -/
theorem readMeta_pagination :
    (∀ (hdr : Headers) (body : Body) (m : ResponseMeta),
      readMeta hdr body = .ok m →
      (m.pagination.isSome ↔ hasPrefix hdr.contentType "application/json")) ∧
      (∀ (hdr : Headers) (c msg : String) (m : ResponseMeta),
        hasPrefix hdr.contentType "application/json" →
        readMeta hdr (.jsonBody c msg none) = .ok m →
        m.pagination = some zeroPagination ∧ zeroPagination = ⟨0, 0, 0, 0, 0, 0⟩) ∧
      (∀ (hdr : Headers) (body : Body) (m : ResponseMeta),
        ¬ hasPrefix hdr.contentType "application/json" →
        readMeta hdr body = .ok m → m.pagination = none) := by
  refine ⟨?_, ?_, ?_⟩
  · intro hdr body m h
    have hp := (readMeta_ok_parts hdr body m h).1
    unfold parsePagination at hp
    by_cases hct : hasPrefix hdr.contentType "application/json"
    · cases body with
      | notJson => simp [hct] at hp
      | jsonBody c msg pag =>
        simp only [hct, if_true] at hp
        rw [← Except.ok.inj hp]
        simp [hct]
    · simp only [hct, if_false] at hp
      rw [← Except.ok.inj hp]
      simp [hct]
  · intro hdr c msg m hct h
    have hp := (readMeta_ok_parts hdr (.jsonBody c msg none) m h).1
    unfold parsePagination at hp
    simp only [hct, if_true] at hp
    exact ⟨(Except.ok.inj hp).symm, rfl⟩
  · intro hdr body m hct h
    have hp := (readMeta_ok_parts hdr body m h).1
    unfold parsePagination at hp
    simp only [hct, if_false] at hp
    exact (Except.ok.inj hp).symm

/-- Witness for C7: a JSON response whose body lacks the `meta.pagination` key
parses to a present all-zero pagination block. -/
theorem readMeta_pagination_witness :
    (⟨some zeroPagination, ⟨0, 0, none⟩⟩ : ResponseMeta).pagination =
        some zeroPagination ∧
      zeroPagination = ⟨0, 0, 0, 0, 0, 0⟩ :=
  readMeta_pagination.2.1 ⟨"application/json", "", "", ""⟩ "" ""
    ⟨some zeroPagination, ⟨0, 0, none⟩⟩ (by decide) rfl

/-- C8: for a response whose body `Client.Do` has buffered (a fresh reader at
position 0), `ReadBody` returns exactly the buffered bytes, a second
`ReadBody` returns the same bytes again, and after each read the body is a
readable buffer of those same bytes positioned at 0. -/
theorem readBody_rereadable (meta : ResponseMeta) (bytes : List ℕ) :
    (ReadBody ⟨meta, bufferedBody bytes⟩).1 = bytes ∧
      (ReadBody (ReadBody ⟨meta, bufferedBody bytes⟩).2).1 =
        (ReadBody ⟨meta, bufferedBody bytes⟩).1 ∧
      (ReadBody ⟨meta, bufferedBody bytes⟩).2.body = bufferedBody bytes ∧
      (ReadBody (ReadBody ⟨meta, bufferedBody bytes⟩).2).2.body =
        bufferedBody bytes := by
  refine ⟨?_, ?_, ?_, ?_⟩ <;> simp [ReadBody, readAll, bufferedBody]

/-- C9: under a JSON content type with a body that is not valid JSON,
`Client.Do` returns the wrapped meta-parsing error for EVERY status code —
the status is never examined, so neither the typed classifier error nor the
generic status error can be produced (404 included). -/
theorem do_metaParse_precedes_status :
    ∀ (status : ℤ) (hdr : Headers),
      hasPrefix hdr.contentType "application/json" →
      doProcess status hdr .notJson =
          .error (.metaParse
            ("hcloud: error reading response meta data: " ++ "invalid JSON")) ∧
        (∀ status₂ : ℤ,
          doProcess status hdr .notJson = doProcess status₂ hdr .notJson) ∧
        (∀ e, doProcess status hdr .notJson ≠ .error (.api e)) ∧
        (∀ s, doProcess status hdr .notJson ≠ .error (.genericStatus s)) := by
  intro status hdr hct
  have hm : doProcess status hdr .notJson =
      .error (.metaParse
        ("hcloud: error reading response meta data: " ++ "invalid JSON")) := by
    simp [doProcess, readMeta, parsePagination, hct]
  refine ⟨hm, ?_, ?_, ?_⟩
  · intro status₂
    rw [hm]
    simp [doProcess, readMeta, parsePagination, hct]
  · intro e
    rw [hm]
    intro hcontra
    cases hcontra
  · intro s
    rw [hm]
    intro hcontra
    cases hcontra

/-- Witness for C9: a 404 with JSON content type but an invalid JSON body
yields the meta-parse error, not a status-code error. -/
theorem do_metaParse_precedes_status_witness :
    doProcess 404 ⟨"application/json", "", "", ""⟩ .notJson =
      .error (.metaParse
        ("hcloud: error reading response meta data: " ++ "invalid JSON")) :=
  (do_metaParse_precedes_status 404 ⟨"application/json", "", "", ""⟩
    (by decide)).1

/-- C10: `WithEndpoint(e)` stores `e` with ALL trailing `'/'` characters
removed — the stored endpoint does not end in `'/'` and `e` is the stored
endpoint followed by some run of slashes (conjunct 1); every request URL is
exactly the stored endpoint concatenated with the path (conjunct 2); hence
clients configured with `"https://host/v1"` and `"https://host/v1/"` build
identical URLs for every path (conjunct 3). -/
theorem withEndpoint_trim_newRequest :
    (∀ (e : String) (c : Client), ∃ n : ℕ,
      e.data = (WithEndpoint e c).endpoint.data ++ List.replicate n '/' ∧
        ((WithEndpoint e c).endpoint.data.getLast?).all
          (fun ch => ! (ch == '/')) = true) ∧
      (∀ (c : Client) (path : String),
        newRequestURL c path = c.endpoint ++ path) ∧
      (∀ (c₁ c₂ : Client) (path : String),
        newRequestURL (WithEndpoint "https://host/v1" c₁) path =
          newRequestURL (WithEndpoint "https://host/v1/" c₂) path) := by
  refine ⟨?_, fun c path => rfl, ?_⟩
  · intro e c
    refine ⟨(e.data.reverse.takeWhile (fun ch => ch = '/')).length, ?_, ?_⟩
    · show e.data = (trimRightSlashes e).data ++ _
      unfold trimRightSlashes
      have hsplit := List.takeWhile_append_dropWhile
        (p := fun ch => decide (ch = '/')) (l := e.data.reverse)
      have htake : e.data.reverse.takeWhile (fun ch => decide (ch = '/')) =
          List.replicate
            ((e.data.reverse.takeWhile (fun ch => decide (ch = '/'))).length)
            '/' := by
        apply List.eq_replicate_of_mem
        intro b hb
        have := List.mem_takeWhile_imp hb
        simpa using this
      conv_lhs => rw [← List.reverse_reverse e.data, ← hsplit]
      rw [List.reverse_append, htake, List.reverse_replicate]
      simp
    · show ((trimRightSlashes e).data.getLast?).all (fun ch => ! (ch == '/')) = true
      unfold trimRightSlashes
      rw [List.getLast?_reverse]
      have hh := List.head?_dropWhile_not (fun ch => decide (ch = '/'))
        e.data.reverse
      cases hd : (e.data.reverse.dropWhile (fun ch => decide (ch = '/'))).head? with
      | none => simp
      | some x =>
        rw [hd] at hh
        simp only [Option.all_some]
        simpa using hh
  · intro c₁ c₂ path
    show (trimRightSlashes "https://host/v1" : String) ++ path =
      (trimRightSlashes "https://host/v1/" : String) ++ path
    have h₁ : trimRightSlashes "https://host/v1" = "https://host/v1" := by decide
    have h₂ : trimRightSlashes "https://host/v1/" = "https://host/v1" := by decide
    rw [h₁, h₂]

/-- Witness for C10: the two canonical endpoints build the same URL for the
path `/servers`. -/
theorem withEndpoint_trim_newRequest_witness :
    newRequestURL (WithEndpoint "https://host/v1" ⟨"", "token"⟩) "/servers" =
      newRequestURL (WithEndpoint "https://host/v1/" ⟨"", "token"⟩) "/servers" :=
  withEndpoint_trim_newRequest.2.2 ⟨"", "token"⟩ ⟨"", "token"⟩ "/servers"

end Hcloud
